import Mathlib

/-!
Shallow embedding of the ecoQuest web services, for checking the
specification against the code.

Embedded code:
* `src/web-config/node-js/server.js` — the configuration editor backend:
  `POST /api/set-lines` (validation, five MQTT publishes with per-publish
  callbacks, a completion check, and a 10-second timeout) and
  `GET /api/get-config` (aggregation of the retained topics).
* `src/web-display/node-js/server.js` — the relay's MQTT message handler
  for `gps/status`.
* `src/unnamed/part_000` — `formatTimeJS`.

JavaScript numbers are modelled as rationals (`ℚ`); the nonfinite values
NaN/Infinity have no rational counterpart and payload strings built from
non-integer numbers are rendered by a fixed injective function rather than
the exact JS double formatting (no claim depends on that rendering).
-/

/-- A JavaScript value, as it can appear in a parsed JSON request body
(plus `jsUndefined` for a missing field after destructuring). -/
inductive JsVal where
  | jsUndefined
  | null
  | bool (b : Bool)
  | num (q : ℚ)
  | str (s : String)
  | arr (elems : List JsVal)
  | obj (fields : List (String × JsVal))

/-- JavaScript truthiness of a value (`!v` in the source is `¬ truthy v`).
`0` and the empty string are falsy; arrays and objects are always truthy. -/
def truthy : JsVal → Bool
  | .jsUndefined => false
  | .null => false
  | .bool b => b
  | .num q => q ≠ 0
  | .str s => s ≠ ""
  | .arr _ => true
  | .obj _ => true

/-- `Array.isArray(v) && v.length === 2` (server.js line 186). -/
def isArr2 : JsVal → Bool
  | .arr l => l.length == 2
  | _ => false

/-- `v[0]` — JS indexing, yielding `undefined` out of range or on a
non-array. -/
def elem0 : JsVal → JsVal
  | .arr (x :: _) => x
  | _ => .jsUndefined

/-- `v[1]`. -/
def elem1 : JsVal → JsVal
  | .arr (_ :: y :: _) => y
  | _ => .jsUndefined

/-- `isValidPoint` from server.js line 190:
`Array.isArray(p) && p.length === 2 && typeof p[0] === 'number' && typeof p[1] === 'number'`. -/
def isValidPoint : JsVal → Bool
  | .arr [.num _, .num _] => true
  | _ => false

/-- The body of a `POST /api/set-lines` request after destructuring
`const { start, finish, lap, totalLaps, idealTime } = req.body`
(server.js line 177); a field absent from the body destructures to
`undefined`. -/
structure SetLinesBody where
  start : JsVal
  finish : JsVal
  lap : JsVal
  totalLaps : JsVal
  idealTime : JsVal

/-- `Number.isInteger(q)` for a rational model of a JS number. -/
def jsIsInteger (q : ℚ) : Bool := q.den == 1

/-- The totalLaps check of server.js line 195, as the condition for the
value to be ACCEPTED: `typeof totalLaps === 'number'` (which also rules
out `undefined` and `null`) and `totalLaps >= 0` and
`Number.isInteger(totalLaps)`. -/
def goodLapsVal : JsVal → Bool
  | .num q => decide (0 ≤ q) && jsIsInteger q
  | _ => false

/-- The idealTime check of server.js line 199, as the condition for the
value to be accepted: a number that is `>= 0`. -/
def goodTimeVal : JsVal → Bool
  | .num q => decide (0 ≤ q)
  | _ => false

/-- The validation cascade of `POST /api/set-lines` (server.js lines
182-201), returning the 400 message of the first failing check, or `none`
when the request passes validation. -/
def validateSetLines (b : SetLinesBody) : Option String :=
  if ¬ truthy b.start ∨ ¬ truthy b.finish ∨ ¬ truthy b.lap then
    some "Missing line data (start, finish, or lap)."
  else if ¬ isArr2 b.start ∨ ¬ isArr2 b.finish ∨ ¬ isArr2 b.lap then
    some "Incorrect line format. Each line must be an array of two [lat, lon] points."
  else if ¬ isValidPoint (elem0 b.start) ∨ ¬ isValidPoint (elem1 b.start) ∨
          ¬ isValidPoint (elem0 b.finish) ∨ ¬ isValidPoint (elem1 b.finish) ∨
          ¬ isValidPoint (elem0 b.lap) ∨ ¬ isValidPoint (elem1 b.lap) then
    some "Incorrect point format within a line. Points must be [lat, lon] arrays."
  else if ¬ goodLapsVal b.totalLaps then
    some "Invalid total laps value. Must be a whole number >= 0."
  else if ¬ goodTimeVal b.idealTime then
    some "Invalid ideal time value. Must be a number >= 0."
  else
    none

/-- The five publish tasks of one `/api/set-lines` request: the three line
topics of `linesToPublish` and the two scalar topics of `configToPublish`
(server.js lines 209-217). Doubles as the topic name space of the five
retained config topics. -/
inductive PubTask where
  | start
  | finish
  | lap
  | totalLaps
  | idealTime
  deriving DecidableEq

/-- The five tasks in the order the handler registers them. -/
def allTasks : List PubTask := [.start, .finish, .lap, .totalLaps, .idealTime]

/-- `totalTasks = linesToPublish.length + configToPublish.length`
(server.js line 221). -/
def totalTasks : Nat := 5

/-- The string pushed onto `errors` when the publish callback of a task
reports an error (server.js lines 248 and 265). -/
def failMsg : PubTask → String
  | .start => "Failed Start line."
  | .finish => "Failed Finish line."
  | .lap => "Failed Lap line."
  | .totalLaps => "Failed Total Laps config."
  | .idealTime => "Failed Ideal Time config."

/-- An HTTP response of the web-config server, as status plus JSON body
fields (`message`, and `details` where the code sends one). -/
inductive Response where
  | ok200 (msg : String)
  | err500 (msg : String) (details : List String)
  | serverErr500 (msg : String)
  | timeout508 (msg : String) (details : List String)
  | badReq400 (msg : String)
  deriving DecidableEq

/-- The HTTP status code of a response. -/
def statusCode : Response → Nat
  | .ok200 _ => 200
  | .err500 _ _ => 500
  | .serverErr500 _ => 500
  | .timeout508 _ _ => 508
  | .badReq400 _ => 400

/-- The `message` field of a response. -/
def respMsg : Response → String
  | .ok200 m => m
  | .err500 m _ => m
  | .serverErr500 m => m
  | .timeout508 m _ => m
  | .badReq400 m => m

/-- The success message (server.js line 234). -/
def okMsg : String := "All lines and config published successfully!"

/-- The confirmed-failure message (server.js line 231). -/
def errPublishMsg : String := "Error publishing some configuration parts."

/-- The timeout message (server.js line 281). -/
def timeoutMsg : String :=
  "Timeout waiting for all MQTT publish confirmations. Some settings might not have saved."

/-- The per-request bookkeeping of `/api/set-lines`: the mutable locals
`successes`, `errors`, `responseSent` (server.js lines 219-222), plus the
list of responses actually sent on the `res` object, recorded to reason
about single-response behaviour. -/
structure PubState where
  successes : Nat
  errors : List String
  responseSent : Bool
  sent : List Response
  deriving DecidableEq

/-- The bookkeeping state at the start of a request. -/
def initPubState : PubState := ⟨0, [], false, []⟩

/-- The response `checkCompletion` sends once all tasks have reported
(server.js lines 229-235). -/
def completionResponse (errors : List String) : Response :=
  if errors = [] then .ok200 okMsg else .err500 errPublishMsg errors

/-- `checkCompletion` (server.js lines 225-237): does nothing if a response
was already sent; otherwise, once `successes + errors.length === totalTasks`,
marks the response sent and sends the 200 or 500 completion response. -/
def checkCompletion (s : PubState) : PubState :=
  if s.responseSent then s
  else if s.successes + s.errors.length = totalTasks then
    { s with responseSent := true, sent := s.sent ++ [completionResponse s.errors] }
  else s

/-- One publish callback firing for task `t` with success flag `ok`
(server.js lines 245-254 and 262-271): on success increment `successes`,
on error push the task's failure message, then run `checkCompletion`. -/
def ackStep (s : PubState) (t : PubTask) (ok : Bool) : PubState :=
  checkCompletion
    (if ok then { s with successes := s.successes + 1 }
     else { s with errors := s.errors ++ [failMsg t] })

/-- The 10-second timeout firing (server.js lines 275-285): if no response
was sent yet, mark it sent and send the 508 timeout response carrying the
errors received so far. -/
def timeoutStep (s : PubState) : PubState :=
  if s.responseSent then s
  else { s with responseSent := true,
                sent := s.sent ++ [.timeout508 timeoutMsg s.errors] }

/-- An asynchronous event observed by one `/api/set-lines` request: a
publish acknowledgement callback, or the timeout firing. -/
inductive PubEvent where
  | ack (t : PubTask) (ok : Bool)
  | timeout
  deriving DecidableEq

/-- Run the request bookkeeping over a sequence of events. -/
def runEvents : PubState → List PubEvent → PubState
  | s, [] => s
  | s, .ack t ok :: es => runEvents (ackStep s t ok) es
  | s, .timeout :: es => runEvents (timeoutStep s) es

/-- The ack events for the tasks of `order`, each task's callback reporting
success according to `oks`. -/
def acksOf (oks : PubTask → Bool) (order : List PubTask) : List PubEvent :=
  order.map (fun t => .ack t (oks t))

/-- Is `c` one of the whitespace characters JS `parseInt`/`parseFloat`
skip at the front (the common ones; exotic Unicode spaces are not
modelled). -/
def isJsSpace (c : Char) : Bool :=
  c = ' ' ∨ c = '\t' ∨ c = '\n' ∨ c = '\r'

/-- An optional leading sign; returns (negative?, rest). -/
def splitSign : List Char → Bool × List Char
  | '-' :: r => (true, r)
  | '+' :: r => (false, r)
  | cs => (false, cs)

/-- The natural number denoted by a list of decimal digits. -/
def digitsToNat (ds : List Char) : Nat :=
  ds.foldl (fun n c => 10 * n + (c.toNat - 48)) 0

/-- JS `parseInt(s, 10)`: skip whitespace, optional sign, then the longest
run of decimal digits; `none` models the NaN result when no digit is
found. -/
def parseIntJS (s : String) : Option Int :=
  let cs := s.data.dropWhile isJsSpace
  let (neg, cs') := splitSign cs
  let ds := cs'.takeWhile Char.isDigit
  if ds = [] then none
  else some (if neg then -(digitsToNat ds : Int) else (digitsToNat ds : Int))

/-- The exponent part of a JS float literal: optional sign then digits;
if there are no digits the exponent characters are not part of the number
and the value is as if the exponent were 0. -/
def parseExpJS (cs : List Char) : Int :=
  let (neg, cs') := splitSign cs
  let ds := cs'.takeWhile Char.isDigit
  if ds = [] then 0
  else if neg then -(digitsToNat ds : Int) else (digitsToNat ds : Int)

/-- JS `parseFloat(s)`: skip whitespace, optional sign, longest prefix of
the form `digits [. digits] [e/E signed-digits]`; `none` models NaN
(no leading number). The nonfinite literal `Infinity` is outside the
rational model and is treated as unparseable. -/
def parseFloatJS (s : String) : Option ℚ :=
  let cs := s.data.dropWhile isJsSpace
  let (neg, cs') := splitSign cs
  let intDs := cs'.takeWhile Char.isDigit
  let rest := cs'.dropWhile Char.isDigit
  let (fracDs, rest') :=
    match rest with
    | '.' :: r => (r.takeWhile Char.isDigit, r.dropWhile Char.isDigit)
    | _ => ([], rest)
  if intDs = [] ∧ fracDs = [] then none
  else
    let e : Int :=
      match rest' with
      | 'e' :: r => parseExpJS r
      | 'E' :: r => parseExpJS r
      | _ => 0
    let mant : ℚ :=
      (digitsToNat intDs : ℚ) + (digitsToNat fracDs : ℚ) / ((10 : ℚ) ^ fracDs.length)
    let v : ℚ := mant * (10 : ℚ) ^ e
    some (if neg then -v else v)

/-- The wire form of a line on its retained topic:
`JSON.stringify({ p1: [line[0][1], line[0][0]], p2: [line[1][1], line[1][0]] })`
(server.js line 242), kept structurally: each point is an `[lon, lat]`
pair. -/
structure LineWire where
  p1 : ℚ × ℚ
  p2 : ℚ × ℚ
  deriving DecidableEq

/-- A line as the HTTP clients exchange it: two `[lat, lon]` points. -/
abbrev LatLonLine := (ℚ × ℚ) × (ℚ × ℚ)

/-- Publish side: convert the Leaflet `[lat, lon]` points of a line to the
`[lon, lat]` wire payload (server.js line 242). -/
def toWire (l : LatLonLine) : LineWire := ⟨(l.1.2, l.1.1), (l.2.2, l.2.1)⟩

/-- Read side: convert a stored `[lon, lat]` wire payload back to two
Leaflet `[lat, lon]` points:
`[[data.p1[1], data.p1[0]], [data.p2[1], data.p2[0]]]`
(server.js lines 115, 121, 127). -/
def fromWire (w : LineWire) : LatLonLine := ((w.p1.2, w.p1.1), (w.p2.2, w.p2.1))

/-- The raw payload string retained on a config topic, kept structurally:
`line w` is a JSON string parsing to a usable `{p1, p2}` object, `text s`
is any other plain text payload (in particular the `String(value)` of the
scalar topics, and garbage). A `text` payload on a line topic models a
retained value that is not a parseable line object. -/
inductive StoredVal where
  | line (w : LineWire)
  | text (s : String)
  deriving DecidableEq

/-- JS `String(value)` for the numbers the handler publishes on the two
scalar topics (server.js line 259). Exact for integer values; non-integer
rationals get a fixed injective rendering (num/den) rather than the exact
JS double formatting — no claim depends on that rendering. -/
def jsNumString (q : ℚ) : String :=
  if q.den = 1 then toString q.num else toString q.num ++ "/" ++ toString q.den

/-- `jsLine? v` extracts the two points of a line value that passed
validation (`v = [[a, b], [c, d]]` with numeric entries). -/
def jsLine? : JsVal → Option LatLonLine
  | .arr [.arr [.num a, .num b], .arr [.num c, .num d]] => some ((a, b), (c, d))
  | _ => none

/-- `jsNum? v` extracts a numeric value. -/
def jsNum? : JsVal → Option ℚ
  | .num q => some q
  | _ => none

/-- The five publish tasks of a valid request body, in registration order:
the three line payloads of `linesToPublish` (coordinates swapped to
`[lon, lat]`) and the two scalar payloads of `configToPublish`
(`String(value)`), server.js lines 209-217, 240-272. `none` when a field
does not have the extractable shape (impossible after validation). -/
def setLinesPublishes (b : SetLinesBody) : Option (List (PubTask × StoredVal)) := do
  let s ← jsLine? b.start
  let f ← jsLine? b.finish
  let l ← jsLine? b.lap
  let n ← jsNum? b.totalLaps
  let q ← jsNum? b.idealTime
  pure [(.start, .line (toWire s)), (.finish, .line (toWire f)),
        (.lap, .line (toWire l)),
        (.totalLaps, .text (jsNumString n)), (.idealTime, .text (jsNumString q))]

/-- The synchronous part of the `/api/set-lines` handler: validation
(400), then the MQTT connection check (500), then the publish tasks that
will be handed to the MQTT client (server.js lines 182-217). -/
def setLinesImmediate (connected : Bool) (b : SetLinesBody) :
    Except Response (List (PubTask × StoredVal)) :=
  match validateSetLines b with
  | some m => .error (.badReq400 m)
  | none =>
    if connected then .ok ((setLinesPublishes b).getD [])
    else .error (.serverErr500 "MQTT client not connected. Cannot save configuration.")

/-- The retained state of the five config topics, as mirrored into
`currentConfig` by the subscription handler (server.js lines 32-38 and
67-79): the latest payload per topic, `none` when nothing was retained. -/
def Store : Type := PubTask → Option StoredVal

/-- Overwrite one topic of the store (a retained publish, or the
`currentConfig[topic] = payload` of the message handler). -/
def updStore (st : Store) (t : PubTask) (v : StoredVal) : Store :=
  fun t' => if t' = t then some v else st t'

/-- Apply the publishes of one request to the retained store: a publish
whose callback reported success is retained on its topic; a failed publish
leaves the topic untouched, and nothing is ever rolled back. -/
def applyPubs (st : Store) (pubs : List (PubTask × StoredVal)) (oks : PubTask → Bool) :
    Store :=
  pubs.foldl (fun acc p => if oks p.1 then updStore acc p.1 p.2 else acc) st

/-- JS truthiness of `currentConfig[topic]` (`null` or the empty string is
falsy; any other retained payload string is truthy). -/
def truthyStored : Option StoredVal → Bool
  | none => false
  | some (.line _) => true
  | some (.text s) => s ≠ ""

/-- Reading one line topic in `GET /api/get-config` (server.js lines
110-134): a falsy stored value yields `null`; a stored line payload is
parsed and swapped back to `[lat, lon]` points; any other truthy payload
makes `JSON.parse` or the field access throw, which the catch turns into
the 500 response (modelled as `Except.error`). -/
def readLineTopic : Option StoredVal → Except Unit (Option LatLonLine)
  | none => .ok none
  | some (.line w) => .ok (some (fromWire w))
  | some (.text s) => if s = "" then .ok none else .error ()

/-- Reading `config/total_laps` in `GET /api/get-config` (server.js lines
136-146): falsy stored value defaults to 0; otherwise
`parseInt(payload, 10)`, defaulting to 0 when that is NaN. A stored line
JSON payload never starts with a digit, so it parses to NaN. -/
def readTotalLaps : Option StoredVal → Int
  | none => 0
  | some (.line _) => 0
  | some (.text s) => if s = "" then 0 else (parseIntJS s).getD 0

/-- Reading `config/ideal_time` in `GET /api/get-config` (server.js lines
148-158): falsy stored value defaults to 60; otherwise
`parseFloat(payload)`, defaulting to 60 when that is NaN. -/
def readIdealTime : Option StoredVal → ℚ
  | none => 60
  | some (.line _) => 60
  | some (.text s) => if s = "" then 60 else (parseFloatJS s).getD 60

/-- The 200 body of `GET /api/get-config`. -/
structure GetConfigResp where
  start : Option LatLonLine
  finish : Option LatLonLine
  lap : Option LatLonLine
  totalLaps : Int
  idealTime : ℚ
  deriving DecidableEq

/-- `GET /api/get-config` (server.js lines 105-167): parse the three line
topics inside the try block — any throw is caught and answered with a 500
(`Except.error`) — then aggregate the two scalar topics with their
defaults; scalar parse failures only default, they never fail the
request. -/
def getConfigResp (st : Store) : Except Unit GetConfigResp :=
  match readLineTopic (st .start), readLineTopic (st .finish), readLineTopic (st .lap) with
  | .ok s, .ok f, .ok l =>
    .ok ⟨s, f, l, readTotalLaps (st .totalLaps), readIdealTime (st .idealTime)⟩
  | _, _, _ => .error ()

lemma runEvents_nil (s : PubState) : runEvents s [] = s := rfl

lemma runEvents_cons_ack (s : PubState) (t : PubTask) (ok : Bool) (es : List PubEvent) :
    runEvents s (.ack t ok :: es) = runEvents (ackStep s t ok) es := rfl

lemma runEvents_cons_timeout (s : PubState) (es : List PubEvent) :
    runEvents s (.timeout :: es) = runEvents (timeoutStep s) es := rfl

lemma acksOf_cons (oks : PubTask → Bool) (t : PubTask) (ts : List PubTask) :
    acksOf oks (t :: ts) = .ack t (oks t) :: acksOf oks ts := rfl

lemma acksOf_nil (oks : PubTask → Bool) : acksOf oks [] = [] := rfl

lemma runEvents_append (s : PubState) (l1 l2 : List PubEvent) :
    runEvents s (l1 ++ l2) = runEvents (runEvents s l1) l2 := by
  induction l1 generalizing s with
  | nil => rfl
  | cons e es ih => cases e <;> simp [runEvents, ih]

lemma checkCompletion_noop (s : PubState) (h1 : s.responseSent = false)
    (h2 : s.successes + s.errors.length ≠ totalTasks) : checkCompletion s = s := by
  simp [checkCompletion, h1, h2]

lemma ackStep_true (s : PubState) (t : PubTask) :
    ackStep s t true = checkCompletion { s with successes := s.successes + 1 } := by
  simp [ackStep]

lemma ackStep_false (s : PubState) (t : PubTask) :
    ackStep s t false = checkCompletion { s with errors := s.errors ++ [failMsg t] } := by
  simp [ackStep]

lemma runAcks_incomplete (oks : PubTask → Bool) (l : List PubTask) (s : PubState)
    (h1 : s.responseSent = false)
    (h2 : s.successes + s.errors.length + l.length < totalTasks) :
    (runEvents s (acksOf oks l)).responseSent = false ∧
    (runEvents s (acksOf oks l)).sent = s.sent ∧
    (runEvents s (acksOf oks l)).errors
      = s.errors ++ (l.filter (fun t => ! oks t)).map failMsg ∧
    (runEvents s (acksOf oks l)).successes + (runEvents s (acksOf oks l)).errors.length
      = s.successes + s.errors.length + l.length := by
  induction l generalizing s with
  | nil => simp [acksOf, runEvents, h1]
  | cons t ts ih =>
    rw [acksOf_cons, runEvents_cons_ack]
    simp only [List.length_cons] at h2
    cases hok : oks t with
    | true =>
      have hstep : ackStep s t true = { s with successes := s.successes + 1 } := by
        rw [ackStep_true]
        exact checkCompletion_noop _ (by simpa using h1) (by simp; omega)
      rw [hstep]
      have := ih { s with successes := s.successes + 1 } (by simpa using h1)
        (by simp; omega)
      refine ⟨this.1, by simpa using this.2.1, ?_, ?_⟩
      · rw [this.2.2.1]; simp [hok]
      · rw [this.2.2.2]; simp; omega
    | false =>
      have hstep : ackStep s t false = { s with errors := s.errors ++ [failMsg t] } := by
        rw [ackStep_false]
        exact checkCompletion_noop _ (by simpa using h1) (by simp; omega)
      rw [hstep]
      have := ih { s with errors := s.errors ++ [failMsg t] } (by simpa using h1)
        (by simp; omega)
      refine ⟨this.1, by simpa using this.2.1, ?_, ?_⟩
      · rw [this.2.2.1]; simp [hok]
      · rw [this.2.2.2]; simp; omega

lemma runAcks_complete (oks : PubTask → Bool) (l : List PubTask) (s : PubState)
    (hne : l ≠ []) (h1 : s.responseSent = false) (hsent : s.sent = [])
    (h2 : s.successes + s.errors.length + l.length = totalTasks) :
    (runEvents s (acksOf oks l)).responseSent = true ∧
    (runEvents s (acksOf oks l)).sent
      = [completionResponse (s.errors ++ (l.filter (fun t => ! oks t)).map failMsg)] := by
  induction l generalizing s with
  | nil => exact absurd rfl hne
  | cons t ts ih =>
    rw [acksOf_cons, runEvents_cons_ack]
    simp only [List.length_cons] at h2
    by_cases hts : ts = []
    · subst hts
      rw [acksOf_nil]
      cases hok : oks t with
      | true =>
        have hcnt : s.successes + 1 + s.errors.length = totalTasks := by
          simp only [List.length_nil] at h2; omega
        rw [ackStep_true]
        unfold checkCompletion
        simp [h1, hcnt, hsent, runEvents, hok]
      | false =>
        have hcnt : s.successes + (s.errors.length + 1) = totalTasks := by
          simp only [List.length_nil] at h2; omega
        rw [ackStep_false]
        unfold checkCompletion
        simp [h1, hcnt, hsent, runEvents, hok]
    · have hlts : 1 ≤ ts.length := by
        cases ts with
        | nil => exact absurd rfl hts
        | cons a b => simp
      cases hok : oks t with
      | true =>
        have hstep : ackStep s t true = { s with successes := s.successes + 1 } := by
          rw [ackStep_true]
          exact checkCompletion_noop _ (by simpa using h1) (by simp; omega)
        rw [hstep]
        have := ih { s with successes := s.successes + 1 } hts (by simpa using h1)
          (by simpa using hsent) (by simp; omega)
        refine ⟨this.1, ?_⟩
        rw [this.2]; simp [hok]
      | false =>
        have hstep : ackStep s t false = { s with errors := s.errors ++ [failMsg t] } := by
          rw [ackStep_false]
          exact checkCompletion_noop _ (by simpa using h1) (by simp; omega)
        rw [hstep]
        have := ih { s with errors := s.errors ++ [failMsg t] } hts (by simpa using h1)
          (by simpa using hsent) (by simp; omega)
        refine ⟨this.1, ?_⟩
        rw [this.2]; simp [hok]

lemma runAcks_after_sent (oks : PubTask → Bool) (l : List PubTask) (s : PubState)
    (h1 : s.responseSent = true) :
    (runEvents s (acksOf oks l)).responseSent = true ∧
    (runEvents s (acksOf oks l)).sent = s.sent := by
  induction l generalizing s with
  | nil => simp [acksOf, runEvents, h1]
  | cons t ts ih =>
    rw [acksOf_cons, runEvents_cons_ack]
    have ha : (ackStep s t (oks t)).responseSent = true := by
      cases oks t <;> simp [ackStep, checkCompletion, h1]
    have hb : (ackStep s t (oks t)).sent = s.sent := by
      cases oks t <;> simp [ackStep, checkCompletion, h1]
    have := ih (ackStep s t (oks t)) ha
    exact ⟨this.1, by rw [this.2, hb]⟩

lemma timeoutStep_after_sent (s : PubState) (h1 : s.responseSent = true) :
    timeoutStep s = s := by
  simp [timeoutStep, h1]

lemma timeoutStep_fires (s : PubState) (h1 : s.responseSent = false) :
    (timeoutStep s).responseSent = true ∧
    (timeoutStep s).sent = s.sent ++ [.timeout508 timeoutMsg s.errors] ∧
    (timeoutStep s).errors = s.errors := by
  simp [timeoutStep, h1]

lemma mem_allTasks (t : PubTask) : t ∈ allTasks := by cases t <;> simp [allTasks]

lemma completionResponse_eq_ok_iff (L : List String) :
    completionResponse L = .ok200 okMsg ↔ L = [] := by
  unfold completionResponse
  split <;> simp_all

/-- A line request value built from two `[lat, lon]` points, as the
web client sends it. -/
def mkLineVal (l : LatLonLine) : JsVal :=
  .arr [.arr [.num l.1.1, .num l.1.2], .arr [.num l.2.1, .num l.2.2]]

/-- A complete `/api/set-lines` request body with three lines and the two
scalar parameters. -/
def mkBody (l1 l2 l3 : LatLonLine) (n q : ℚ) : SetLinesBody :=
  ⟨mkLineVal l1, mkLineVal l2, mkLineVal l3, .num n, .num q⟩

/-- A concrete valid request body used to instantiate the theorems. -/
def exampleBody : SetLinesBody :=
  mkBody ((1, 2), (3, 4)) ((5, 6), (7, 8)) ((9, 10), (11, 12)) 3 90

/-- The acknowledgement outcome in which exactly the `config/lap_line`
publish fails. -/
def lapFailOks : PubTask → Bool
  | .lap => false
  | _ => true

/-- Claim C1: for every `POST /api/set-lines` request that passes input
validation, when all five publish callbacks arrive (in any order) before
the timeout, the handler answers 200 with the success message iff every
publish was acknowledged without error, and if at least one publish
reported an error the answer is the 500 failure report whose `details`
list has exactly one entry per failed topic, in arrival order. -/
theorem setLines_response_success_iff_allacked (b : SetLinesBody)
    (hvalid : validateSetLines b = none)
    (oks : PubTask → Bool) (order : List PubTask) (hperm : order.Perm allTasks) :
    (((runEvents initPubState (acksOf oks order ++ [PubEvent.timeout])).sent
        = [Response.ok200 okMsg]) ↔ ∀ t, oks t = true) ∧
    ((∃ t, oks t = false) →
      (runEvents initPubState (acksOf oks order ++ [PubEvent.timeout])).sent
        = [Response.err500 errPublishMsg
             ((order.filter (fun t => ! oks t)).map failMsg)]) := by
  have hlen : order.length = 5 := by simpa [allTasks] using hperm.length_eq
  have hne : order ≠ [] := by
    intro h; rw [h] at hlen; simp at hlen
  have hcnt : initPubState.successes + initPubState.errors.length + order.length
      = totalTasks := by simp [initPubState, totalTasks, hlen]
  have hrun := runAcks_complete oks order initPubState hne rfl rfl hcnt
  have hfull : runEvents initPubState (acksOf oks order ++ [PubEvent.timeout])
      = runEvents initPubState (acksOf oks order) := by
    rw [runEvents_append, runEvents_cons_timeout, timeoutStep_after_sent _ hrun.1,
      runEvents_nil]
  have hsent : (runEvents initPubState (acksOf oks order ++ [PubEvent.timeout])).sent
      = [completionResponse ((order.filter (fun t => ! oks t)).map failMsg)] := by
    rw [hfull, hrun.2]; simp [initPubState]
  constructor
  · rw [hsent]
    constructor
    · intro h t
      have hcr : completionResponse ((order.filter (fun t => ! oks t)).map failMsg)
          = .ok200 okMsg := by
        simpa using h
      have hnil : (order.filter (fun t => ! oks t)).map failMsg = [] :=
        (completionResponse_eq_ok_iff _).mp hcr
      have hfil : order.filter (fun t => ! oks t) = [] := by
        simpa using hnil
      have hmem : t ∈ order := hperm.mem_iff.mpr (mem_allTasks t)
      have := List.filter_eq_nil.mp hfil t hmem
      simpa using this
    · intro h
      have hfil : order.filter (fun t => ! oks t) = [] := by
        apply List.filter_eq_nil.mpr
        intro a _
        simp [h a]
      rw [hfil]
      simp [completionResponse]
  · rintro ⟨t, ht⟩
    rw [hsent]
    have hmem : t ∈ order := hperm.mem_iff.mpr (mem_allTasks t)
    have hfne : order.filter (fun t => ! oks t) ≠ [] := by
      intro hnil
      have := List.filter_eq_nil.mp hnil t hmem
      simp [ht] at this
    have : completionResponse ((order.filter (fun t => ! oks t)).map failMsg)
        = .err500 errPublishMsg ((order.filter (fun t => ! oks t)).map failMsg) := by
      unfold completionResponse
      rw [if_neg]
      simpa using hfne
    rw [this]

theorem setLines_response_success_iff_allacked_witness :
    (runEvents initPubState (acksOf (fun _ => true) allTasks ++ [PubEvent.timeout])).sent
      = [Response.ok200 okMsg] :=
  (setLines_response_success_iff_allacked exampleBody (by decide) (fun _ => true)
    allTasks (List.Perm.refl _)).1.mpr (fun _ => rfl)

/-- Claim C2: in the execution where exactly the `config/lap_line` publish
fails and the other four acknowledge success, the response is the 500
report with 4 successes counted and the single `details` entry naming the
Lap line, and the four successfully published payloads are retained on
their topics with no rollback (the lap topic alone keeps its previous
value). -/
theorem setLines_lapline_partial_failure :
    validateSetLines exampleBody = none ∧
    (runEvents initPubState (acksOf lapFailOks allTasks ++ [PubEvent.timeout])).sent
      = [Response.err500 errPublishMsg ["Failed Lap line."]] ∧
    (runEvents initPubState (acksOf lapFailOks allTasks ++ [PubEvent.timeout])).successes
      = 4 ∧
    applyPubs (fun _ => none) ((setLinesPublishes exampleBody).getD []) lapFailOks .start
      = some (.line ⟨(2, 1), (4, 3)⟩) ∧
    applyPubs (fun _ => none) ((setLinesPublishes exampleBody).getD []) lapFailOks .finish
      = some (.line ⟨(6, 5), (8, 7)⟩) ∧
    applyPubs (fun _ => none) ((setLinesPublishes exampleBody).getD []) lapFailOks .lap
      = none ∧
    applyPubs (fun _ => none) ((setLinesPublishes exampleBody).getD []) lapFailOks .totalLaps
      = some (.text "3") ∧
    applyPubs (fun _ => none) ((setLinesPublishes exampleBody).getD []) lapFailOks .idealTime
      = some (.text "90") := by
  refine ⟨by decide, ?_, ?_, by decide, by decide, by decide, by decide, by decide⟩ <;> decide

/-- Claim C3: when the five acknowledgements have not all arrived within
the 10-second bound, the caller receives the 508 timeout response, whose
status code and message both differ from the confirmed-failure 500
response, whatever that response's details. -/
theorem setLines_timeout_response_distinct (oks : PubTask → Bool) (pre : List PubTask)
    (hpre : pre.length < totalTasks) :
    (runEvents initPubState (acksOf oks pre ++ [PubEvent.timeout])).sent
      = [Response.timeout508 timeoutMsg ((pre.filter (fun t => ! oks t)).map failMsg)] ∧
    (∀ d, statusCode (Response.timeout508 timeoutMsg
              ((pre.filter (fun t => ! oks t)).map failMsg))
            ≠ statusCode (Response.err500 errPublishMsg d) ∧
          respMsg (Response.timeout508 timeoutMsg
              ((pre.filter (fun t => ! oks t)).map failMsg))
            ≠ respMsg (Response.err500 errPublishMsg d)) := by
  have hrun := runAcks_incomplete oks pre initPubState rfl
    (by simpa [initPubState] using hpre)
  constructor
  · rw [runEvents_append, runEvents_cons_timeout, runEvents_nil,
      (timeoutStep_fires _ hrun.1).2.1, hrun.2.1, hrun.2.2.1]
    simp [initPubState]
  · intro d
    exact ⟨by simp [statusCode], by simp [respMsg]; decide⟩

theorem setLines_timeout_response_distinct_witness :
    (runEvents initPubState (acksOf (fun _ => true) [] ++ [PubEvent.timeout])).sent
      = [Response.timeout508 timeoutMsg []] :=
  (setLines_timeout_response_distinct (fun _ => true) [] (by decide)).1

/-- Claim C8: every execution of the handler sends exactly one response:
for any interleaving in which some of the five acknowledgements arrive,
then the timeout fires, then the late acknowledgements arrive, the
`responseSent` flag lets exactly one response through. -/
theorem setLines_single_response (oks : PubTask → Bool) (pre post : List PubTask)
    (hperm : (pre ++ post).Perm allTasks) :
    ((runEvents initPubState
        (acksOf oks pre ++ PubEvent.timeout :: acksOf oks post)).sent).length = 1 := by
  have hlen : pre.length + post.length = 5 := by
    simpa [allTasks] using hperm.length_eq
  rw [runEvents_append, runEvents_cons_timeout]
  rcases Nat.lt_or_ge pre.length 5 with hlt | hge
  · have hrun := runAcks_incomplete oks pre initPubState rfl
      (by simp [initPubState, totalTasks]; omega)
    have hfire := timeoutStep_fires _ hrun.1
    have hafter := runAcks_after_sent oks post _ hfire.1
    rw [hafter.2, hfire.2.1, hrun.2.1]
    simp [initPubState]
  · have hpost : post = [] := List.length_eq_zero.mp (by omega)
    have hne : pre ≠ [] := by
      intro h; rw [h] at hge; simp at hge
    have hrun := runAcks_complete oks pre initPubState hne rfl rfl
      (by simp [initPubState, totalTasks]; omega)
    rw [timeoutStep_after_sent _ hrun.1, hpost, acksOf_nil, runEvents_nil, hrun.2]
    rfl

theorem setLines_single_response_witness :
    ((runEvents initPubState
        (acksOf (fun _ => true) allTasks
          ++ PubEvent.timeout :: acksOf (fun _ => true) [])).sent).length = 1 :=
  setLines_single_response (fun _ => true) allTasks [] (by simp)

/-- A request value that is an array of exactly two `[number, number]`
points. -/
def WireLineShape (v : JsVal) : Prop :=
  ∃ a b c d : ℚ, v = .arr [.arr [.num a, .num b], .arr [.num c, .num d]]

lemma isValidPoint_iff (p : JsVal) :
    isValidPoint p = true ↔ ∃ a b : ℚ, p = .arr [.num a, .num b] := by
  constructor
  · intro h
    cases p with
    | arr l =>
      rcases l with _ | ⟨x, _ | ⟨y, _ | ⟨z, l⟩⟩⟩
      · simp [isValidPoint] at h
      · cases x <;> simp [isValidPoint] at h
      · cases x <;> cases y <;> (try (simp [isValidPoint] at h)) <;> exact ⟨_, _, rfl⟩
      · cases x <;> cases y <;> simp [isValidPoint] at h
    | jsUndefined => simp [isValidPoint] at h
    | null => simp [isValidPoint] at h
    | bool b => simp [isValidPoint] at h
    | num q => simp [isValidPoint] at h
    | str s => simp [isValidPoint] at h
    | obj o => simp [isValidPoint] at h
  · rintro ⟨a, b, rfl⟩
    rfl

lemma goodLine_iff (v : JsVal) :
    (truthy v = true ∧ isArr2 v = true ∧
     isValidPoint (elem0 v) = true ∧ isValidPoint (elem1 v) = true)
      ↔ WireLineShape v := by
  constructor
  · rintro ⟨h1, h2, h3, h4⟩
    cases v with
    | arr l =>
      have hlen : l.length = 2 := by simpa [isArr2] using h2
      obtain ⟨x, y, rfl⟩ := List.length_eq_two.mp hlen
      obtain ⟨a, b, rfl⟩ := (isValidPoint_iff _).mp h3
      obtain ⟨c, d, rfl⟩ := (isValidPoint_iff _).mp h4
      exact ⟨a, b, c, d, rfl⟩
    | jsUndefined => simp [isArr2] at h2
    | null => simp [isArr2] at h2
    | bool b => simp [isArr2] at h2
    | num q => simp [isArr2] at h2
    | str s => simp [isArr2] at h2
    | obj o => simp [isArr2] at h2
  · rintro ⟨a, b, c, d, rfl⟩
    exact ⟨rfl, rfl, rfl, rfl⟩

lemma goodLapsVal_iff (v : JsVal) :
    goodLapsVal v = true ↔ ∃ n : ℤ, v = .num (n : ℚ) ∧ 0 ≤ n := by
  cases v with
  | num q =>
    simp only [goodLapsVal, Bool.and_eq_true, decide_eq_true_eq, jsIsInteger,
      beq_iff_eq, JsVal.num.injEq]
    constructor
    · rintro ⟨hq, hden⟩
      refine ⟨q.num, ?_, ?_⟩
      · exact (Rat.den_eq_one_iff q).mp hden |>.symm
      · exact Rat.num_nonneg.mpr hq
    · rintro ⟨n, rfl, hn⟩
      refine ⟨by exact_mod_cast hn, Rat.den_intCast n⟩
  | jsUndefined => simp [goodLapsVal]
  | null => simp [goodLapsVal]
  | bool b => simp [goodLapsVal]
  | str s => simp [goodLapsVal]
  | arr l => simp [goodLapsVal]
  | obj o => simp [goodLapsVal]

lemma goodTimeVal_iff (v : JsVal) :
    goodTimeVal v = true ↔ ∃ q : ℚ, v = .num q ∧ 0 ≤ q := by
  cases v with
  | num q => simp [goodTimeVal]
  | jsUndefined => simp [goodTimeVal]
  | null => simp [goodTimeVal]
  | bool b => simp [goodTimeVal]
  | str s => simp [goodTimeVal]
  | arr l => simp [goodTimeVal]
  | obj o => simp [goodTimeVal]

lemma validateSetLines_none_iff (b : SetLinesBody) :
    validateSetLines b = none ↔
      (truthy b.start = true ∧ truthy b.finish = true ∧ truthy b.lap = true ∧
       isArr2 b.start = true ∧ isArr2 b.finish = true ∧ isArr2 b.lap = true ∧
       isValidPoint (elem0 b.start) = true ∧ isValidPoint (elem1 b.start) = true ∧
       isValidPoint (elem0 b.finish) = true ∧ isValidPoint (elem1 b.finish) = true ∧
       isValidPoint (elem0 b.lap) = true ∧ isValidPoint (elem1 b.lap) = true ∧
       goodLapsVal b.totalLaps = true ∧ goodTimeVal b.idealTime = true) := by
  constructor
  · intro h
    unfold validateSetLines at h
    split_ifs at h with h1 h2 h3 h4 h5
    push_neg at h1 h2 h3
    exact ⟨h1.1, h1.2.1, h1.2.2, h2.1, h2.2.1, h2.2.2, h3.1, h3.2.1, h3.2.2.1,
      h3.2.2.2.1, h3.2.2.2.2.1, h3.2.2.2.2.2, h4, h5⟩
  · rintro ⟨t1, t2, t3, a1, a2, a3, p1, p2, p3, p4, p5, p6, hl, ht⟩
    simp [validateSetLines, t1, t2, t3, a1, a2, a3, p1, p2, p3, p4, p5, p6, hl, ht]

/-- Claim C4, amended: `POST /api/set-lines` accepts (validation passes)
exactly the requests whose start/finish/lap are each an array of exactly
two `[number, number]` points, whose totalLaps is a non-negative integer
number and whose idealTime is a non-negative number — the two points of a
line are NOT required to be distinct, a degenerate segment passes — and
every request failing one of these checks is answered 400 with no topic
published. -/
theorem setLines_validation_characterization (b : SetLinesBody) :
    (validateSetLines b = none ↔
      (WireLineShape b.start ∧ WireLineShape b.finish ∧ WireLineShape b.lap ∧
       (∃ n : ℤ, b.totalLaps = .num (n : ℚ) ∧ 0 ≤ n) ∧
       (∃ q : ℚ, b.idealTime = .num q ∧ 0 ≤ q))) ∧
    (∀ m, validateSetLines b = some m →
      setLinesImmediate true b = .error (.badReq400 m)) := by
  constructor
  · rw [validateSetLines_none_iff]
    constructor
    · rintro ⟨t1, t2, t3, a1, a2, a3, p1, p2, p3, p4, p5, p6, hl, ht⟩
      exact ⟨(goodLine_iff _).mp ⟨t1, a1, p1, p2⟩,
             (goodLine_iff _).mp ⟨t2, a2, p3, p4⟩,
             (goodLine_iff _).mp ⟨t3, a3, p5, p6⟩,
             (goodLapsVal_iff _).mp hl, (goodTimeVal_iff _).mp ht⟩
    · rintro ⟨hs, hf, hl, hn, hq⟩
      obtain ⟨t1, a1, p1, p2⟩ := (goodLine_iff _).mpr hs
      obtain ⟨t2, a2, p3, p4⟩ := (goodLine_iff _).mpr hf
      obtain ⟨t3, a3, p5, p6⟩ := (goodLine_iff _).mpr hl
      exact ⟨t1, t2, t3, a1, a2, a3, p1, p2, p3, p4, p5, p6,
             (goodLapsVal_iff _).mpr hn, (goodTimeVal_iff _).mpr hq⟩
  · intro m hm
    simp [setLinesImmediate, hm]

theorem setLines_validation_characterization_witness :
    validateSetLines exampleBody = none ∧
    (WireLineShape exampleBody.start ∧ WireLineShape exampleBody.finish ∧
     WireLineShape exampleBody.lap ∧
     (∃ n : ℤ, exampleBody.totalLaps = .num (n : ℚ) ∧ 0 ≤ n) ∧
     (∃ q : ℚ, exampleBody.idealTime = .num q ∧ 0 ≤ q)) :=
  have h : validateSetLines exampleBody = none := by decide
  ⟨h, (setLines_validation_characterization exampleBody).1.mp h⟩

/-- Claim C4, counterexample: the request whose start line is the
degenerate segment with both points equal to `[0, 0]` passes validation
and proceeds to publishing — the handler does not reject degenerate
segments, contrary to the claim. -/
theorem setLines_degenerate_accepted :
    validateSetLines (mkBody ((0, 0), (0, 0)) ((0, 0), (1, 1)) ((0, 0), (1, 1)) 1 1)
      = none ∧
    elem0 (mkBody ((0, 0), (0, 0)) ((0, 0), (1, 1)) ((0, 0), (1, 1)) 1 1).start
      = elem1 (mkBody ((0, 0), (0, 0)) ((0, 0), (1, 1)) ((0, 0), (1, 1)) 1 1).start ∧
    setLinesImmediate true (mkBody ((0, 0), (0, 0)) ((0, 0), (1, 1)) ((0, 0), (1, 1)) 1 1)
      = .ok [(.start, .line ⟨(0, 0), (0, 0)⟩), (.finish, .line ⟨(0, 0), (1, 1)⟩),
             (.lap, .line ⟨(0, 0), (1, 1)⟩), (.totalLaps, .text "1"),
             (.idealTime, .text "1")] :=
  ⟨by decide, rfl, rfl⟩

lemma jsLine?_mkLineVal (l : LatLonLine) : jsLine? (mkLineVal l) = some l := by
  obtain ⟨⟨a, b⟩, c, d⟩ := l
  rfl

lemma setLinesPublishes_mkBody (l1 l2 l3 : LatLonLine) (n q : ℚ) :
    setLinesPublishes (mkBody l1 l2 l3 n q)
      = some [(.start, .line (toWire l1)), (.finish, .line (toWire l2)),
              (.lap, .line (toWire l3)),
              (.totalLaps, .text (jsNumString n)), (.idealTime, .text (jsNumString q))] := by
  simp [setLinesPublishes, mkBody, jsLine?_mkLineVal, jsNum?]

lemma setLinesPublishes_of_valid (b : SetLinesBody) (hv : validateSetLines b = none) :
    ∃ s f l : LatLonLine, ∃ n q : ℚ,
      setLinesPublishes b
        = some [(.start, .line (toWire s)), (.finish, .line (toWire f)),
                (.lap, .line (toWire l)),
                (.totalLaps, .text (jsNumString n)), (.idealTime, .text (jsNumString q))] := by
  rw [validateSetLines_none_iff] at hv
  obtain ⟨t1, t2, t3, a1, a2, a3, p1, p2, p3, p4, p5, p6, hl, ht⟩ := hv
  obtain ⟨sa, sb, sc, sd, hs⟩ := (goodLine_iff b.start).mp ⟨t1, a1, p1, p2⟩
  obtain ⟨fa, fb, fc, fd, hf⟩ := (goodLine_iff b.finish).mp ⟨t2, a2, p3, p4⟩
  obtain ⟨la, lb, lc, ld, hlp⟩ := (goodLine_iff b.lap).mp ⟨t3, a3, p5, p6⟩
  obtain ⟨n, hn, _⟩ := (goodLapsVal_iff b.totalLaps).mp hl
  obtain ⟨q, hq, _⟩ := (goodTimeVal_iff b.idealTime).mp ht
  refine ⟨((sa, sb), (sc, sd)), ((fa, fb), (fc, fd)), ((la, lb), (lc, ld)),
    (n : ℚ), q, ?_⟩
  simp [setLinesPublishes, hs, hf, hlp, hn, hq, jsLine?, jsNum?]

lemma applyPubs_five (st : Store) (v1 v2 v3 v4 v5 : StoredVal) :
    applyPubs st [(.start, v1), (.finish, v2), (.lap, v3), (.totalLaps, v4),
        (.idealTime, v5)] (fun _ => true)
      = fun t => some (match t with
          | .start => v1
          | .finish => v2
          | .lap => v3
          | .totalLaps => v4
          | .idealTime => v5) := by
  funext t
  cases t <;> simp [applyPubs, updStore]

lemma allacked_ok_response (order : List PubTask) (hperm : order.Perm allTasks) :
    (runEvents initPubState (acksOf (fun _ => true) order ++ [PubEvent.timeout])).sent
      = [Response.ok200 okMsg] := by
  have hlen : order.length = 5 := by simpa [allTasks] using hperm.length_eq
  have hne : order ≠ [] := by
    intro h; rw [h] at hlen; simp at hlen
  have hrun := runAcks_complete (fun _ => true) order initPubState hne rfl rfl
    (by simp [initPubState, totalTasks, hlen])
  rw [runEvents_append, runEvents_cons_timeout, timeoutStep_after_sent _ hrun.1,
    runEvents_nil, hrun.2]
  simp [initPubState, completionResponse]

/-- Claim C6: a line handed to `POST /api/set-lines` as two `[lat, lon]`
points is published as the coordinate-swapped `(p1 = [lon, lat], p2 = [lon, lat])`
wire payload, and `GET /api/get-config` applied to that stored payload
returns exactly the original `[lat, lon]` points: the publish-side swap
composed with the read-side swap is the identity. -/
theorem line_roundtrip_wire (l1 l2 l3 : LatLonLine) (n q : ℚ) :
    setLinesPublishes (mkBody l1 l2 l3 n q)
      = some [(.start, .line (toWire l1)), (.finish, .line (toWire l2)),
              (.lap, .line (toWire l3)),
              (.totalLaps, .text (jsNumString n)), (.idealTime, .text (jsNumString q))] ∧
    toWire l1 = ⟨(l1.1.2, l1.1.1), (l1.2.2, l1.2.1)⟩ ∧
    fromWire (toWire l1) = l1 ∧
    getConfigResp (fun t => if t = .start then some (.line (toWire l1)) else none)
      = .ok ⟨some l1, none, none, 0, 60⟩ := by
  obtain ⟨⟨a, b⟩, c, d⟩ := l1
  exact ⟨setLinesPublishes_mkBody _ _ _ _ _, rfl, rfl, rfl⟩

/-- Claim C7: replaying the identical valid configuration update twice,
with every publish acknowledged, leaves the retained store exactly as
after a single update, and each of the two requests independently gets
the all-succeeded 200 response (the second request starts from fresh
bookkeeping by construction of the handler's per-request locals). -/
theorem setLines_idempotent_replay (b : SetLinesBody) (hv : validateSetLines b = none)
    (st : Store) (o1 o2 : List PubTask) (h1 : o1.Perm allTasks) (h2 : o2.Perm allTasks) :
    applyPubs (applyPubs st ((setLinesPublishes b).getD []) (fun _ => true))
        ((setLinesPublishes b).getD []) (fun _ => true)
      = applyPubs st ((setLinesPublishes b).getD []) (fun _ => true) ∧
    (runEvents initPubState (acksOf (fun _ => true) o1 ++ [PubEvent.timeout])).sent
      = [Response.ok200 okMsg] ∧
    (runEvents initPubState (acksOf (fun _ => true) o2 ++ [PubEvent.timeout])).sent
      = [Response.ok200 okMsg] := by
  refine ⟨?_, allacked_ok_response o1 h1, allacked_ok_response o2 h2⟩
  obtain ⟨s, f, l, n, q, hpubs⟩ := setLinesPublishes_of_valid b hv
  rw [hpubs]
  simp only [Option.getD_some]
  rw [applyPubs_five, applyPubs_five]

theorem setLines_idempotent_replay_witness :
    (applyPubs (applyPubs (fun _ => none) ((setLinesPublishes exampleBody).getD [])
        (fun _ => true)) ((setLinesPublishes exampleBody).getD []) (fun _ => true)
      = applyPubs (fun _ => none) ((setLinesPublishes exampleBody).getD [])
          (fun _ => true)) ∧
    (runEvents initPubState (acksOf (fun _ => true) allTasks ++ [PubEvent.timeout])).sent
      = [Response.ok200 okMsg] ∧
    (runEvents initPubState (acksOf (fun _ => true) allTasks ++ [PubEvent.timeout])).sent
      = [Response.ok200 okMsg] :=
  setLines_idempotent_replay exampleBody (by decide) (fun _ => none) allTasks allTasks
    (List.Perm.refl _) (List.Perm.refl _)

/-- Spec-side comparator for `totalLaps`, following the spec's words:
"totalLaps equal to the stored value parsed as a base-10 integer, or 0
when the topic value is absent or unparseable" (a retained line-JSON
payload on the scalar topic is not parseable as an integer). -/
def specTotalLapsOfStored : Option StoredVal → Int
  | none => 0
  | some (.line _) => 0
  | some (.text s) =>
    match parseIntJS s with
    | some n => n
    | none => 0

/-- Spec-side comparator for `idealTime`, following the spec's words:
"idealTime equal to the stored value parsed as a float, or 60 when absent
or unparseable". -/
def specIdealTimeOfStored : Option StoredVal → ℚ
  | none => 60
  | some (.line _) => 60
  | some (.text s) =>
    match parseFloatJS s with
    | some q => q
    | none => 60

lemma readTotalLaps_eq_spec (v : Option StoredVal) :
    readTotalLaps v = specTotalLapsOfStored v := by
  rcases v with _ | (w | s)
  · rfl
  · rfl
  · by_cases h : s = ""
    · subst h; rfl
    · simp [readTotalLaps, specTotalLapsOfStored, h]
      cases parseIntJS s <;> rfl

lemma readIdealTime_eq_spec (v : Option StoredVal) :
    readIdealTime v = specIdealTimeOfStored v := by
  rcases v with _ | (w | s)
  · rfl
  · rfl
  · by_cases h : s = ""
    · subst h; rfl
    · simp [readIdealTime, specIdealTimeOfStored, h]
      cases parseFloatJS s <;> rfl

/-- Overwrite the two scalar topics of a store, leaving the line topics
untouched. -/
def setNumTopics (st : Store) (v w : Option StoredVal) : Store :=
  fun t => if t = .totalLaps then v else if t = .idealTime then w else st t

/-- Claim C5: whenever `GET /api/get-config` answers 200, its `totalLaps`
field is the stored `config/total_laps` payload parsed as a base-10
integer with default 0 when absent or unparseable, and its `idealTime`
field is the stored `config/ideal_time` payload parsed as a float with
default 60 when absent or unparseable; and whether the request fails at
all never depends on the two scalar topics (the numeric defaults never
cause a failure). -/
theorem getConfig_numeric_defaults (st : Store) :
    (∀ r, getConfigResp st = .ok r →
      r.totalLaps = specTotalLapsOfStored (st .totalLaps) ∧
      r.idealTime = specIdealTimeOfStored (st .idealTime)) ∧
    (∀ v w, (getConfigResp (setNumTopics st v w)).isOk = (getConfigResp st).isOk) := by
  constructor
  · intro r hr
    unfold getConfigResp at hr
    split at hr
    · rename_i s f l hs hf hl
      cases hr
      exact ⟨readTotalLaps_eq_spec _, readIdealTime_eq_spec _⟩
    · cases hr
  · intro v w
    have e1 : setNumTopics st v w .start = st .start := rfl
    have e2 : setNumTopics st v w .finish = st .finish := rfl
    have e3 : setNumTopics st v w .lap = st .lap := rfl
    unfold getConfigResp
    rw [e1, e2, e3]
    rcases readLineTopic (st .start) with _ | s <;>
      rcases readLineTopic (st .finish) with _ | f <;>
      rcases readLineTopic (st .lap) with _ | l <;> rfl

theorem getConfig_numeric_defaults_witness :
    ((⟨none, none, none, 0, 60⟩ : GetConfigResp).totalLaps
        = specTotalLapsOfStored none ∧
     (⟨none, none, none, 0, 60⟩ : GetConfigResp).idealTime
        = specIdealTimeOfStored none) ∧
    (getConfigResp (setNumTopics (fun _ => none) (some (.text "7"))
        (some (.text "abc")))).isOk
      = (getConfigResp (fun _ => none)).isOk :=
  ⟨(getConfig_numeric_defaults (fun _ => none)).1 ⟨none, none, none, 0, 60⟩ rfl,
   (getConfig_numeric_defaults (fun _ => none)).2 (some (.text "7"))
     (some (.text "abc"))⟩

/-- The five keys a `gps/status` payload must carry
(web-display server.js line 107). -/
def requiredKeys : List String :=
  ["current_lap", "total_laps", "last_lap_time_seconds", "race_finished",
   "current_lap_elapsed_seconds"]

/-- `key in payload` for a JS object modelled as an association list. -/
def hasKey (kvs : List (String × JsVal)) (k : String) : Bool :=
  kvs.any (fun kv => kv.1 == k)

/-- The spread merge `{ ...a, ...b }`: keys of `a` keep their position but
take `b`'s value when `b` also has the key; keys only in `b` are appended. -/
def mergeObj (a b : List (String × JsVal)) : List (String × JsVal) :=
  a.map (fun kv =>
    match b.find? (fun kv2 => kv2.1 == kv.1) with
    | some kv2 => kv2
    | none => kv)
  ++ b.filter (fun kv2 => ¬ hasKey a kv2.1)

/-- The result of `JSON.parse` on an incoming `gps/status` message:
`invalid` when the payload is not valid JSON (the parse throws, caught at
web-display server.js line 122), `nonObject` when it parses to a value on
which the `in` key test throws or finds nothing (a primitive or an array
— either way the handler changes nothing), and `obj` for a JSON object. -/
inductive ParsedPayload where
  | invalid
  | nonObject
  | obj (kvs : List (String × JsVal))

/-- The `gps/status` branch of the web-display message handler
(web-display server.js lines 100-125): on a payload carrying all five
required keys, merge it into `raceData` and emit one `race_update` event
with the merged data; on any other payload leave `raceData` unchanged and
emit nothing. The surrounding try/catch makes the handler total: a parse
or key-test throw is caught and acts like the no-op branch. Returns the
new `raceData` and the list of emitted `race_update` payloads. -/
def handleGpsStatus (race : List (String × JsVal)) :
    ParsedPayload → List (String × JsVal) × List (List (String × JsVal))
  | .invalid => (race, [])
  | .nonObject => (race, [])
  | .obj kvs =>
    if requiredKeys.all (fun k => hasKey kvs k) then
      (mergeObj race kvs, [mergeObj race kvs])
    else (race, [])

/-- Claim C9: a `gps/status` message whose payload is not valid JSON, or
whose JSON object is missing at least one of the five required keys,
leaves the stored `raceData` unchanged and emits no `race_update`; the
handler (being a total function in this model, with the catch folded in)
never throws out of the message callback. -/
theorem gpsStatus_bad_payload_noop (race : List (String × JsVal)) (p : ParsedPayload)
    (h : p = .invalid ∨ p = .nonObject ∨
      ∃ kvs k, p = .obj kvs ∧ k ∈ requiredKeys ∧ hasKey kvs k = false) :
    handleGpsStatus race p = (race, []) := by
  rcases h with rfl | rfl | ⟨kvs, k, rfl, hk, hmiss⟩
  · rfl
  · rfl
  · have heq : handleGpsStatus race (.obj kvs)
        = if (requiredKeys.all fun k => hasKey kvs k) = true
          then (mergeObj race kvs, [mergeObj race kvs]) else (race, []) := rfl
    rw [heq, if_neg]
    intro hall
    have := List.all_eq_true.mp hall k hk
    rw [hmiss] at this
    cases this

theorem gpsStatus_bad_payload_noop_witness :
    handleGpsStatus [] (.obj [("current_lap", .num 1)]) = ([], []) :=
  gpsStatus_bad_payload_noop [] (.obj [("current_lap", .num 1)])
    (Or.inr (Or.inr ⟨[("current_lap", .num 1)], "total_laps", rfl,
      by simp [requiredKeys], by rfl⟩))

/-- `Math.round` for the non-negative values it is applied to here:
round half up. -/
def jsRound (q : ℚ) : Int := ⌊q + 1 / 2⌋

/-- `String(n).padStart(2, '0')`. -/
def padStart2 (s : String) : String :=
  if 2 ≤ s.length then s else String.mk (List.replicate (2 - s.length) '0') ++ s

/-- The body of `formatTimeJS` after the guards, for a non-negative number
of seconds (src/unnamed/part_000 lines 57-63):
`minutes = Math.floor(seconds / 60)`,
`remainingSeconds = Math.round(seconds % 60)` (for non-negative seconds
the JS `%` is `q - 60 * ⌊q / 60⌋`), with the carry branch turning a
rounded 60 into one more minute and 0 seconds. -/
def formatNonNegSeconds (q : ℚ) : String :=
  if jsRound (q - 60 * ⌊q / 60⌋) = 60 then
    padStart2 (toString (⌊q / 60⌋ + 1)) ++ ":" ++ padStart2 (toString (0 : Int))
  else
    padStart2 (toString ⌊q / 60⌋) ++ ":"
      ++ padStart2 (toString (jsRound (q - 60 * ⌊q / 60⌋)))

/-- The argument of `formatTimeJS`: `null`, `undefined`, a number, or a
string (run through `parseFloat` by the coercion in the source). -/
inductive JsTimeArg where
  | null
  | jsUndefined
  | num (q : ℚ)
  | str (s : String)

/-- `formatTimeJS` (src/unnamed/part_000 lines 51-67): `null` and
`undefined` short-circuit to `"00:00"`; anything else goes through
`parseFloat`, and a NaN result or a negative value also yields `"00:00"`;
a non-negative number is formatted as zero-padded minutes and rounded
seconds with the carry at 60. -/
def formatTimeJS : JsTimeArg → String
  | .null => "00:00"
  | .jsUndefined => "00:00"
  | .num q => if q < 0 then "00:00" else formatNonNegSeconds q
  | .str s =>
    match parseFloatJS s with
    | none => "00:00"
    | some q => if q < 0 then "00:00" else formatNonNegSeconds q

/-- Claim C10: `formatTimeJS` is total and clamps bad input: `null`,
`undefined`, non-numeric strings and negative numbers all yield
`"00:00"`, and every non-negative number yields a zero-padded `MM:SS`
string whose seconds field is between 0 and 59 — when the seconds round
to 60 the carry increments the minutes and the seconds field shows 0. -/
theorem formatTime_total_clamped :
    formatTimeJS .null = "00:00" ∧
    formatTimeJS .jsUndefined = "00:00" ∧
    (∀ s, parseFloatJS s = none → formatTimeJS (.str s) = "00:00") ∧
    (∀ q : ℚ, q < 0 → formatTimeJS (.num q) = "00:00") ∧
    (∀ q : ℚ, 0 ≤ q →
      ∃ m sec : Int, 0 ≤ m ∧ 0 ≤ sec ∧ sec ≤ 59 ∧
        formatTimeJS (.num q)
          = padStart2 (toString m) ++ ":" ++ padStart2 (toString sec) ∧
        ((jsRound (q - 60 * ⌊q / 60⌋) = 60 ∧ m = ⌊q / 60⌋ + 1 ∧ sec = 0) ∨
         (jsRound (q - 60 * ⌊q / 60⌋) ≠ 60 ∧ m = ⌊q / 60⌋ ∧
          sec = jsRound (q - 60 * ⌊q / 60⌋)))) := by
  refine ⟨rfl, rfl, ?_, ?_, ?_⟩
  · intro s hs
    have heq : formatTimeJS (.str s)
        = (match parseFloatJS s with
           | none => "00:00"
           | some q => if q < 0 then "00:00" else formatNonNegSeconds q) := rfl
    rw [heq, hs]
  · intro q hq
    have heq : formatTimeJS (.num q)
        = if q < 0 then "00:00" else formatNonNegSeconds q := rfl
    rw [heq, if_pos hq]
  · intro q hq
    have hfl : (⌊q / 60⌋ : ℚ) ≤ q / 60 := Int.floor_le _
    have hfu : q / 60 < ⌊q / 60⌋ + 1 := Int.lt_floor_add_one _
    have hq60 : q / 60 * 60 = q := div_mul_cancel₀ q (by norm_num)
    have h0 : 0 ≤ q - 60 * ⌊q / 60⌋ := by linarith
    have h60 : q - 60 * ⌊q / 60⌋ < 60 := by linarith
    have hr0 : 0 ≤ jsRound (q - 60 * ⌊q / 60⌋) := by
      unfold jsRound
      exact Int.le_floor.mpr (by push_cast; linarith)
    have hr61 : jsRound (q - 60 * ⌊q / 60⌋) < 61 := by
      unfold jsRound
      exact Int.floor_lt.mpr (by push_cast; linarith)
    have hm0 : 0 ≤ ⌊q / 60⌋ :=
      Int.floor_nonneg.mpr (div_nonneg hq (by norm_num))
    have hfmt : formatTimeJS (.num q) = formatNonNegSeconds q := by
      have heq : formatTimeJS (.num q)
          = if q < 0 then "00:00" else formatNonNegSeconds q := rfl
      rw [heq, if_neg (not_lt.mpr hq)]
    by_cases hcar : jsRound (q - 60 * ⌊q / 60⌋) = 60
    · refine ⟨⌊q / 60⌋ + 1, 0, by omega, le_refl 0, by norm_num, ?_,
        Or.inl ⟨hcar, rfl, rfl⟩⟩
      rw [hfmt]
      unfold formatNonNegSeconds
      rw [if_pos hcar]
    · refine ⟨⌊q / 60⌋, jsRound (q - 60 * ⌊q / 60⌋), hm0, hr0, by omega, ?_,
        Or.inr ⟨hcar, rfl, rfl⟩⟩
      rw [hfmt]
      unfold formatNonNegSeconds
      rw [if_neg hcar]

theorem formatTime_total_clamped_witness :
    formatTimeJS (.str "abc") = "00:00" ∧
    formatTimeJS (.num (-5)) = "00:00" ∧
    (∃ m sec : Int, 0 ≤ m ∧ 0 ≤ sec ∧ sec ≤ 59 ∧
      formatTimeJS (.num (599 / 10))
        = padStart2 (toString m) ++ ":" ++ padStart2 (toString sec) ∧
      ((jsRound ((599 / 10 : ℚ) - 60 * ⌊(599 / 10 : ℚ) / 60⌋) = 60 ∧
          m = ⌊(599 / 10 : ℚ) / 60⌋ + 1 ∧ sec = 0) ∨
       (jsRound ((599 / 10 : ℚ) - 60 * ⌊(599 / 10 : ℚ) / 60⌋) ≠ 60 ∧
          m = ⌊(599 / 10 : ℚ) / 60⌋ ∧
          sec = jsRound ((599 / 10 : ℚ) - 60 * ⌊(599 / 10 : ℚ) / 60⌋)))) :=
  ⟨formatTime_total_clamped.2.2.1 "abc" (by decide),
   formatTime_total_clamped.2.2.2.1 (-5) (by decide),
   formatTime_total_clamped.2.2.2.2 (599 / 10) (by norm_num)⟩
